import Mathlib

/-!
Shallow embedding of the `unstructured` crate (proctorlabs/unstructured-rs).

The repository contains two parallel implementations of its dynamic document
type, plus an older top-level crate:

* `src/unstructured/src/core/` and `src/unstructured/src/number/`: the generic
  `Unstructured<T>` value (variants `Unassigned, Null, Bool, Number, String,
  Char, Bytes, Seq, Map, Option, Newtype, Err, Other`) with a separate
  `Number` payload type of 12 fixed widths.  Embedded below as `DocN` and
  `NumberZ`.
* `src/unstructured/src/lib.rs`: a flat `Document` enum (numeric variants
  inline, `Unit` sentinel) together with `src/unstructured/src/index.rs` and
  the selector evaluator `src/unstructured/src/selector/parser.rs`.  Embedded
  below as `DocU`.
* `src/src/lib.rs`: the older `Document` (no 128-bit variants) with the JSON
  pointer implementation in `src/src/selector/mod.rs`.  Embedded as `Doc0`.

Machine integers are embedded as `Int` together with explicit wrapping
functions for Rust `as` casts.  `f32`/`f64` payloads are embedded as `Rat`:
the float operations exercised by the claims (trait `Ord`/`Eq` on equal-width
floats via `OrderedFloat`, and Rust float-to-integer `as` casts, which
truncate toward zero and saturate) are exact on rationals.  Conversions from
wide integers to floats round to nearest in Rust; they are idealised as exact
rationals here, and no theorem below depends on such a conversion.
-/

namespace Unstr

/-- Rust `as` cast of an arbitrary integer into an unsigned width `w`
(reduction modulo `2^w`, result in `[0, 2^w)`). -/
def wrapU (w : Nat) (v : Int) : Int :=
  v % (2 ^ w : Nat)

/-- Rust `as` cast of an arbitrary integer into a signed width `w`
(two's complement wrap, result in `[-2^(w-1), 2^(w-1))`). -/
def wrapI (w : Nat) (v : Int) : Int :=
  (v + 2 ^ (w - 1)) % (2 ^ w : Nat) - 2 ^ (w - 1)

/-- Truncation toward zero of a rational, the rounding Rust uses for
float-to-integer `as` casts. -/
def ratTrunc (x : Rat) : Int :=
  x.num.tdiv x.den

/-- Rust float-to-integer `as` cast: truncate toward zero, then saturate to
the target range `[lo, hi]` (`NaN`, which maps to 0, has no rational model
and is not exercised by any claim). -/
def ratAsInt (lo hi : Int) (x : Rat) : Int :=
  max lo (min hi (ratTrunc x))

/-- The `Number` enum of `src/unstructured/src/number/mod.rs`: twelve
fixed-width variants.  Integer payloads are `Int` (the Rust value embedded
exactly), float payloads are `Rat`. -/
inductive NumberZ where
  | u8 (v : Int)
  | u16 (v : Int)
  | u32 (v : Int)
  | u64 (v : Int)
  | u128 (v : Int)
  | i8 (v : Int)
  | i16 (v : Int)
  | i32 (v : Int)
  | i64 (v : Int)
  | i128 (v : Int)
  | f32 (x : Rat)
  | f64 (x : Rat)
  deriving DecidableEq

namespace NumberZ

/-- `Number::discriminant` (src/unstructured/src/number/mod.rs). -/
def disc : NumberZ → Nat
  | .u8 _ => 1
  | .u16 _ => 2
  | .u32 _ => 3
  | .u64 _ => 4
  | .u128 _ => 5
  | .i8 _ => 6
  | .i16 _ => 7
  | .i32 _ => 8
  | .i64 _ => 9
  | .i128 _ => 10
  | .f32 _ => 11
  | .f64 _ => 12

/-- `Number::is_signed`. -/
def isSigned : NumberZ → Bool
  | .i8 _ | .i16 _ | .i32 _ | .i64 _ | .i128 _ => true
  | _ => false

/-- `Number::is_unsigned`. -/
def isUnsigned : NumberZ → Bool
  | .u8 _ | .u16 _ | .u32 _ | .u64 _ | .u128 _ => true
  | _ => false

/-- `Number::is_float`. -/
def isFloat : NumberZ → Bool
  | .f32 _ | .f64 _ => true
  | _ => false

/-- `impl From<&Number> for i128` (src/unstructured/src/number/from.rs):
each payload is converted with a Rust `as` cast to `i128`. -/
def toI128 : NumberZ → Int
  | .u8 v | .u16 v | .u32 v | .u64 v => v
  | .u128 v => wrapI 128 v
  | .i8 v | .i16 v | .i32 v | .i64 v | .i128 v => v
  | .f32 x | .f64 x => ratAsInt (-(2 ^ 127)) (2 ^ 127 - 1) x

/-- `impl From<&Number> for u128`. -/
def toU128 : NumberZ → Int
  | .u8 v | .u16 v | .u32 v | .u64 v | .u128 v => v
  | .i8 v | .i16 v | .i32 v | .i64 v | .i128 v => wrapU 128 v
  | .f32 x | .f64 x => ratAsInt 0 (2 ^ 128 - 1) x

/-- `impl From<&Number> for i64`. -/
def toI64 : NumberZ → Int
  | .u8 v | .u16 v | .u32 v => v
  | .u64 v | .u128 v => wrapI 64 v
  | .i8 v | .i16 v | .i32 v | .i64 v => v
  | .i128 v => wrapI 64 v
  | .f32 x | .f64 x => ratAsInt (-(2 ^ 63)) (2 ^ 63 - 1) x

/-- `impl From<&Number> for u64`. -/
def toU64 : NumberZ → Int
  | .u8 v | .u16 v | .u32 v | .u64 v => v
  | .u128 v => wrapU 64 v
  | .i8 v | .i16 v | .i32 v | .i64 v | .i128 v => wrapU 64 v
  | .f32 x | .f64 x => ratAsInt 0 (2 ^ 64 - 1) x

/-- `impl From<&Number> for i32`. -/
def toI32 : NumberZ → Int
  | .u8 v | .u16 v => v
  | .u32 v | .u64 v | .u128 v => wrapI 32 v
  | .i8 v | .i16 v | .i32 v => v
  | .i64 v | .i128 v => wrapI 32 v
  | .f32 x | .f64 x => ratAsInt (-(2 ^ 31)) (2 ^ 31 - 1) x

/-- `impl From<&Number> for u32`. -/
def toU32 : NumberZ → Int
  | .u8 v | .u16 v | .u32 v => v
  | .u64 v | .u128 v => wrapU 32 v
  | .i8 v | .i16 v | .i32 v | .i64 v | .i128 v => wrapU 32 v
  | .f32 x | .f64 x => ratAsInt 0 (2 ^ 32 - 1) x

/-- `impl From<&Number> for i16`. -/
def toI16 : NumberZ → Int
  | .u8 v => v
  | .u16 v | .u32 v | .u64 v | .u128 v => wrapI 16 v
  | .i8 v | .i16 v => v
  | .i32 v | .i64 v | .i128 v => wrapI 16 v
  | .f32 x | .f64 x => ratAsInt (-(2 ^ 15)) (2 ^ 15 - 1) x

/-- `impl From<&Number> for u16`. -/
def toU16 : NumberZ → Int
  | .u8 v | .u16 v => v
  | .u32 v | .u64 v | .u128 v => wrapU 16 v
  | .i8 v | .i16 v | .i32 v | .i64 v | .i128 v => wrapU 16 v
  | .f32 x | .f64 x => ratAsInt 0 (2 ^ 16 - 1) x

/-- `impl From<&Number> for i8`. -/
def toI8 : NumberZ → Int
  | .u8 v | .u16 v | .u32 v | .u64 v | .u128 v => wrapI 8 v
  | .i8 v => v
  | .i16 v | .i32 v | .i64 v | .i128 v => wrapI 8 v
  | .f32 x | .f64 x => ratAsInt (-128) 127 x

/-- `impl From<&Number> for u8`. -/
def toU8 : NumberZ → Int
  | .u8 v => v
  | .u16 v | .u32 v | .u64 v | .u128 v => wrapU 8 v
  | .i8 v | .i16 v | .i32 v | .i64 v | .i128 v => wrapU 8 v
  | .f32 x | .f64 x => ratAsInt 0 255 x

/-- `impl From<&Number> for f64` (integers idealised as exact rationals;
Rust rounds integers that exceed 53 bits of precision). -/
def toF64 : NumberZ → Rat
  | .u8 v | .u16 v | .u32 v | .u64 v | .u128 v => (v : Rat)
  | .i8 v | .i16 v | .i32 v | .i64 v | .i128 v => (v : Rat)
  | .f32 x | .f64 x => x

/-- `impl From<&Number> for f32` (idealised like `toF64`; the `f64 → f32`
narrowing, which rounds in Rust, is likewise idealised as the identity and is
not exercised by any theorem below). -/
def toF32 : NumberZ → Rat
  | .u8 v | .u16 v | .u32 v | .u64 v | .u128 v => (v : Rat)
  | .i8 v | .i16 v | .i32 v | .i64 v | .i128 v => (v : Rat)
  | .f32 x | .f64 x => x

/-- `impl Ord for Number` (src/unstructured/src/number/cmp.rs): the match
scrutinises only the variant of `self` (the left operand); the right operand
is converted to the left operand's width with a Rust `as` conversion chain
and the comparison happens at that width.  `OrderedFloat` comparison on
equal-width floats is total order on the payload, exact on `Rat`. -/
def cmp (a b : NumberZ) : Ordering :=
  match a with
  | .i128 i => compare i (toI128 b)
  | .u128 i => compare i (toU128 b)
  | .f64 x => compare x (toF64 b)
  | .i64 i => compare i (toI64 b)
  | .u64 i => compare i (toU64 b)
  | .f32 x => compare x (toF32 b)
  | .i32 i => compare i (toI32 b)
  | .u32 i => compare i (toU32 b)
  | .i16 i => compare i (toI16 b)
  | .u16 i => compare i (toU16 b)
  | .i8 i => compare i (toI8 b)
  | .u8 i => compare i (toU8 b)

/-- `impl PartialEq<Number> for Number` (src/unstructured/src/number/cmp.rs):
like `cmp`, the right operand is converted to the left operand's width. -/
def beq (a b : NumberZ) : Bool :=
  match a with
  | .i128 i => i == toI128 b
  | .u128 i => i == toU128 b
  | .f64 x => x == toF64 b
  | .i64 i => i == toI64 b
  | .u64 i => i == toU64 b
  | .f32 x => x == toF32 b
  | .i32 i => i == toI32 b
  | .u32 i => i == toU32 b
  | .i16 i => i == toI16 b
  | .u16 i => i == toU16 b
  | .i8 i => i == toI8 b
  | .u8 i => i == toU8 b

end NumberZ

/-- `UnstructuredError` (src/unstructured/src/core/mod.rs), the error payload
of the `Err` variant at the crate's default instantiation
(`Document = Unstructured<UnstructuredType>`). -/
inductive UErr where
  | serializer
  | deserializer
  deriving DecidableEq

/-- The generic `Unstructured<T>` enum of `src/unstructured/src/core/mod.rs`,
instantiated at `UnstructuredType` (so `Err` carries `UnstructuredError` and
`Other` carries the unit-like `DefaultOther`).  `Seq` holds a `Vec` (a Lean
list) and `Map` a `BTreeMap` represented by its in-order entry list. -/
inductive DocN where
  | unassigned
  | null
  | bool (b : Bool)
  | num (n : NumberZ)
  | str (s : String)
  | char (c : Char)
  | bytes (bs : List Nat)
  | seq (xs : List DocN)
  | map (kvs : List (DocN × DocN))
  | opt (o : Option DocN)
  | newtype (d : DocN)
  | err (e : UErr)
  | other

namespace DocN

/-- `Unstructured::discriminant` (src/unstructured/src/core/mod.rs): the
fixed per-variant rank, with `Number` delegating to `Number::discriminant`. -/
def disc : DocN → Nat
  | .bool _ => 0
  | .num n => n.disc
  | .char _ => 13
  | .str _ => 14
  | .null => 15
  | .opt _ => 16
  | .newtype _ => 17
  | .seq _ => 18
  | .map _ => 19
  | .bytes _ => 20
  | .unassigned => 21
  | .err _ => 22
  | .other => 23

/-- Lexicographic comparison of `Vec<u8>` payloads (Rust `Ord` on `Vec`). -/
def cmpBytes : List Nat → List Nat → Ordering
  | [], [] => .eq
  | [], _ :: _ => .lt
  | _ :: _, [] => .gt
  | a :: as_, b :: bs => (compare a b).then (cmpBytes as_ bs)

mutual

/-- `impl Ord for Unstructured` (src/unstructured/src/core/mod.rs lines
126-142): payload comparison on matching variants, `Number` delegating to
`Number::cmp`, and the catch-all arm comparing discriminants. -/
def cmp : DocN → DocN → Ordering
  | .bool a, .bool b => compare a b
  | .num a, .num b => NumberZ.cmp a b
  | .char a, .char b => compare a b
  | .str a, .str b => compare a b
  | .null, .null => .eq
  | .opt a, .opt b => cmpOpt a b
  | .newtype a, .newtype b => cmp a b
  | .seq a, .seq b => cmpList a b
  | .map a, .map b => cmpPairs a b
  | .bytes a, .bytes b => cmpBytes a b
  | a, b => compare a.disc b.disc

/-- Rust `Ord` on `Option<Box<Unstructured>>`: `None < Some`. -/
def cmpOpt : Option DocN → Option DocN → Ordering
  | none, none => .eq
  | none, some _ => .lt
  | some _, none => .gt
  | some a, some b => cmp a b

/-- Rust `Ord` on `Vec<Unstructured>`: lexicographic. -/
def cmpList : List DocN → List DocN → Ordering
  | [], [] => .eq
  | [], _ :: _ => .lt
  | _ :: _, [] => .gt
  | a :: as_, b :: bs => (cmp a b).then (cmpList as_ bs)

/-- Rust `Ord` on `BTreeMap<Unstructured, Unstructured>`: lexicographic over
the in-order `(key, value)` pairs. -/
def cmpPairs : List (DocN × DocN) → List (DocN × DocN) → Ordering
  | [], [] => .eq
  | [], _ :: _ => .lt
  | _ :: _, [] => .gt
  | (k1, v1) :: r1, (k2, v2) :: r2 =>
      (cmp k1 k2).then ((cmp v1 v2).then (cmpPairs r1 r2))

end

/-- `BTreeMap::get_mut(&key)` / `BTreeMap::get(&key)` on the in-order entry
list: the first entry whose key compares `Equal` with the query (the query is
the left operand of `cmp`, as in `BTreeMap`'s search). -/
def mget (kvs : List (DocN × DocN)) (k : DocN) : Option DocN :=
  (kvs.find? (fun kv => cmp k kv.1 == .eq)).map (·.2)

/-- `BTreeMap::insert(key, val)` (also `entry(key).or_insert(..)` followed by
assignment): replace the value of the first `cmp`-equal entry, keeping the
stored key, or place a new entry at its ordered position. -/
def minsert : List (DocN × DocN) → DocN → DocN → List (DocN × DocN)
  | [], k, v => [(k, v)]
  | (k0, v0) :: rest, k, v =>
      match cmp k k0 with
      | .lt => (k, v) :: (k0, v0) :: rest
      | .eq => (k0, v) :: rest
      | .gt => (k0, v0) :: minsert rest k v

mutual

/-- `Unstructured::merge` (src/unstructured/src/core/mod.rs lines 265-291).
`self` a `Seq`: append the other `Seq`'s elements, or push a non-`Seq` as one
trailing element.  `self` a `Map` and `other` a `Map`: fold `other`'s entries
into `self` (see `mergeEntries`).  Every other case: `other` replaces
`self`. -/
def merge : DocN → DocN → DocN
  | .seq s, .seq o => .seq (s ++ o)
  | .seq s, o => .seq (s ++ [o])
  | .map m, .map o => .map (mergeEntries m o)
  | .map _, o => o
  | _, o => o
termination_by _a b => (sizeOf b, 0)
decreasing_by all_goals (simp_wf; omega)

/-- The `for (key, val) in o.into_iter()` loop of `Unstructured::merge`: for
each entry of `other`, recursively merge into an existing `cmp`-equal entry
of `self`, else insert the pair. -/
def mergeEntries : List (DocN × DocN) → List (DocN × DocN) → List (DocN × DocN)
  | m, [] => m
  | m, (k, v) :: rest =>
      mergeEntries
        (match mget m k with
         | some _ => mmergeAt m k v
         | none => minsert m k v)
        rest
termination_by _m l => (sizeOf l, 1)
decreasing_by all_goals (simp_wf; omega)

/-- `loc.merge(val)` through `BTreeMap::get_mut`: merge `v` into the value of
the first `cmp`-equal entry (a no-op on a list without such an entry; it is
only invoked after a successful lookup). -/
def mmergeAt : List (DocN × DocN) → DocN → DocN → List (DocN × DocN)
  | [], _, _ => []
  | (k0, v0) :: rest, k, v =>
      if cmp k k0 == .eq then (k0, merge v0 v) :: rest
      else (k0, v0) :: mmergeAt rest k v
termination_by kvs _ v => (sizeOf v + 1, sizeOf kvs)
decreasing_by all_goals (simp_wf; omega)

end

/-- Equality of `Vec<u8>` payloads. -/
def beqBytes : List Nat → List Nat → Bool
  | [], [] => true
  | a :: as_, b :: bs => a == b && beqBytes as_ bs
  | _, _ => false

mutual

/-- `impl PartialEq for Unstructured` (src/unstructured/src/core/cmp.rs lines
60-77): structural equality on matching variants, except `Number`, which
delegates to `Number`'s cross-width `PartialEq`; any other pair is `false`. -/
def beq : DocN → DocN → Bool
  | .unassigned, .unassigned => true
  | .null, .null => true
  | .bool a, .bool b => a == b
  | .num a, .num b => NumberZ.beq a b
  | .char a, .char b => a == b
  | .str a, .str b => a == b
  | .opt a, .opt b => beqOpt a b
  | .newtype a, .newtype b => beq a b
  | .seq a, .seq b => beqList a b
  | .map a, .map b => beqPairs a b
  | .bytes a, .bytes b => beqBytes a b
  | _, _ => false

/-- Rust `PartialEq` on `Option<Box<Unstructured>>`. -/
def beqOpt : Option DocN → Option DocN → Bool
  | none, none => true
  | some a, some b => beq a b
  | _, _ => false

/-- Rust `PartialEq` on `Vec<Unstructured>`. -/
def beqList : List DocN → List DocN → Bool
  | [], [] => true
  | a :: as_, b :: bs => beq a b && beqList as_ bs
  | _, _ => false

/-- Rust `PartialEq` on `BTreeMap<Unstructured, Unstructured>`: equality of
the in-order `(key, value)` sequences. -/
def beqPairs : List (DocN × DocN) → List (DocN × DocN) → Bool
  | [], [] => true
  | (k1, v1) :: r1, (k2, v2) :: r2 => beq k1 k2 && (beq v1 v2 && beqPairs r1 r2)
  | _, _ => false

end

/-- `Unstructured::is_number`. -/
def isNumber : DocN → Bool
  | .num _ => true
  | _ => false

/-- `val.is::<Sequence<T>>()` (src/unstructured/src/core/convert.rs). -/
def isSeq : DocN → Bool
  | .seq _ => true
  | _ => false

/-- `val.is::<Mapping<T>>()` (src/unstructured/src/core/convert.rs). -/
def isMap : DocN → Bool
  | .map _ => true
  | _ => false

/-- `cast::<usize>` on a `Number` payload (the arms of the
`impl_document_convertible!` macro in src/unstructured/src/core/convert.rs
for target `usize`, with `usize` 64 bits wide): `v == (v as usize) as S`
decides, and the `usize` image is returned. -/
def castUsizeNum : NumberZ → Option Nat
  | .u8 v => if v = wrapU 8 (wrapU 64 v) then some (wrapU 64 v).toNat else none
  | .u16 v => if v = wrapU 16 (wrapU 64 v) then some (wrapU 64 v).toNat else none
  | .u32 v => if v = wrapU 32 (wrapU 64 v) then some (wrapU 64 v).toNat else none
  | .u64 v => if v = wrapU 64 (wrapU 64 v) then some (wrapU 64 v).toNat else none
  | .u128 v => if v = wrapU 128 (wrapU 64 v) then some (wrapU 64 v).toNat else none
  | .i8 v => if v = wrapI 8 (wrapU 64 v) then some (wrapU 64 v).toNat else none
  | .i16 v => if v = wrapI 16 (wrapU 64 v) then some (wrapU 64 v).toNat else none
  | .i32 v => if v = wrapI 32 (wrapU 64 v) then some (wrapU 64 v).toNat else none
  | .i64 v => if v = wrapI 64 (wrapU 64 v) then some (wrapU 64 v).toNat else none
  | .i128 v => if v = wrapI 128 (wrapU 64 v) then some (wrapU 64 v).toNat else none
  | .f32 x =>
      if x = ((ratAsInt 0 (2 ^ 64 - 1) x : Int) : Rat)
      then some (ratAsInt 0 (2 ^ 64 - 1) x).toNat else none
  | .f64 x =>
      if x = ((ratAsInt 0 (2 ^ 64 - 1) x : Int) : Rat)
      then some (ratAsInt 0 (2 ^ 64 - 1) x).toNat else none

/-- `Unstructured::as_usize` (src/unstructured/src/core/mod.rs): only a
`Number` payload, via `cast::<usize>`. -/
def asUsize : DocN → Option Nat
  | .num n => castUsizeNum n
  | _ => none

/-- `Index::index_into` for a `Unstructured` index
(src/unstructured/src/core/index.rs lines 19-31): `self` is the index,
`v` the indexed document.  A `Seq` is addressed by `as_usize` with an
explicit bounds check; a `Map` by `BTreeMap::get` with the index as key;
everything else yields `None`. -/
def indexInto (self v : DocN) : Option DocN :=
  match v with
  | .seq s =>
      match self.asUsize with
      | some i => if s.length ≤ i then none else s.get? i
      | none => none
  | .map kvs => mget kvs self
  | _ => none

/-- `ops::Index::index` (src/unstructured/src/core/index.rs lines 125-135):
`index.index_into(self).unwrap_or(&Unstructured::Null)`. -/
def opsIndex (v idx : DocN) : DocN :=
  (indexInto idx v).getD .null

/-- `Index::index_or_insert` (src/unstructured/src/core/index.rs lines
46-74) composed with the `IndexMut` assignment `*slot = val`, i.e. the net
effect of `v[idx] = val`.  A numeric index on a node that is neither `Seq`
nor `Map` first overwrites it with an empty `Seq`; a non-numeric index on a
non-`Map` overwrites it with an empty `Map`.  A `Map` is then addressed by
key; a `Seq` in bounds in place, out of bounds by pushing a single slot at
the old length.  `none` models the `unreachable!` panics (a numeric index
whose `as_usize` is `None`, e.g. a fractional float, reaching the `Seq`
arm). -/
def indexOrInsert (v idx val : DocN) : Option DocN :=
  let v1 :=
    if idx.isNumber && !(v.isSeq || v.isMap) then .seq []
    else if !idx.isNumber && !v.isMap then .map []
    else v
  match v1 with
  | .map kvs => some (.map (minsert kvs idx val))
  | .seq xs =>
      match idx.asUsize with
      | some i =>
          if xs.length ≤ i then some (.seq (xs ++ [val]))
          else some (.seq (xs.set i val))
      | none => none
  | _ => none

/-- Digit run to number, for the embeddings of Rust `str::parse`. -/
def digitsToNat (cs : List Char) : Nat :=
  cs.foldl (fun a c => a * 10 + (c.toNat - 48)) 0

/-- Rust `str::parse` for a bounded signed integer type with range
`[lo, hi]`: an optional sign, then one or more digits, rejecting values out
of range. -/
def parseIntIn (lo hi : Int) (s : String) : Option Int :=
  let p : Int × List Char :=
    match s.data with
    | '+' :: r => (1, r)
    | '-' :: r => (-1, r)
    | r => (1, r)
  if p.2 = [] || !p.2.all (·.isDigit) then none
  else
    let v : Int := p.1 * (digitsToNat p.2 : Int)
    if lo ≤ v && v ≤ hi then some v else none

/-- `cast::<i8>` on `Unstructured` (the `impl_document_convertible!` macro in
src/unstructured/src/core/convert.rs, lines 62-71, at target `i8`): each
`Number` arm tests `v == (v as i8) as S` and returns `Some(v as i8)`;
a `String` is parsed; `Option`/`Newtype` recurse; anything else is `None`. -/
def castI8 : DocN → Option Int
  | .num (.i8 v) => if v = wrapI 8 (wrapI 8 v) then some (wrapI 8 v) else none
  | .num (.i16 v) => if v = wrapI 16 (wrapI 8 v) then some (wrapI 8 v) else none
  | .num (.i32 v) => if v = wrapI 32 (wrapI 8 v) then some (wrapI 8 v) else none
  | .num (.i64 v) => if v = wrapI 64 (wrapI 8 v) then some (wrapI 8 v) else none
  | .num (.i128 v) => if v = wrapI 128 (wrapI 8 v) then some (wrapI 8 v) else none
  | .num (.u8 v) => if v = wrapU 8 (wrapI 8 v) then some (wrapI 8 v) else none
  | .num (.u16 v) => if v = wrapU 16 (wrapI 8 v) then some (wrapI 8 v) else none
  | .num (.u32 v) => if v = wrapU 32 (wrapI 8 v) then some (wrapI 8 v) else none
  | .num (.u64 v) => if v = wrapU 64 (wrapI 8 v) then some (wrapI 8 v) else none
  | .num (.u128 v) => if v = wrapU 128 (wrapI 8 v) then some (wrapI 8 v) else none
  | .num (.f32 x) =>
      if x = ((ratAsInt (-128) 127 x : Int) : Rat)
      then some (ratAsInt (-128) 127 x) else none
  | .num (.f64 x) =>
      if x = ((ratAsInt (-128) 127 x : Int) : Rat)
      then some (ratAsInt (-128) 127 x) else none
  | .str s => parseIntIn (-128) 127 s
  | .opt (some d) => castI8 d
  | .opt none => none
  | .newtype d => castI8 d
  | _ => none

/-- The value read by `d[idx]` is an immediate child of `d`: an element of a
`Seq`, or the value of some entry of a `Map`. -/
def IsChild (c d : DocN) : Prop :=
  (∃ xs, d = .seq xs ∧ c ∈ xs) ∨ (∃ kvs k, d = .map kvs ∧ (k, c) ∈ kvs)

end DocN

/-- The flat `Document` enum of `src/unstructured/src/lib.rs` (numeric
variants inline, `Unit` sentinel, `Err` carrying a boxed error rendered here
by its message). -/
inductive DocU where
  | bool (b : Bool)
  | u8 (v : Int)
  | u16 (v : Int)
  | u32 (v : Int)
  | u64 (v : Int)
  | u128 (v : Int)
  | i8 (v : Int)
  | i16 (v : Int)
  | i32 (v : Int)
  | i64 (v : Int)
  | i128 (v : Int)
  | f32 (x : Rat)
  | f64 (x : Rat)
  | char (c : Char)
  | str (s : String)
  | unit
  | opt (o : Option DocU)
  | newtype (d : DocU)
  | seq (xs : List DocU)
  | map (kvs : List (DocU × DocU))
  | bytes (bs : List Nat)
  | unassigned
  | err (e : String)

namespace DocU

/-- `Document::discriminant` (src/unstructured/src/lib.rs lines 483-509). -/
def disc : DocU → Nat
  | .bool _ => 0
  | .u8 _ => 1
  | .u16 _ => 2
  | .u32 _ => 3
  | .u64 _ => 4
  | .u128 _ => 5
  | .i8 _ => 6
  | .i16 _ => 7
  | .i32 _ => 8
  | .i64 _ => 9
  | .i128 _ => 10
  | .f32 _ => 11
  | .f64 _ => 12
  | .char _ => 13
  | .str _ => 14
  | .unit => 15
  | .opt _ => 16
  | .newtype _ => 17
  | .seq _ => 18
  | .map _ => 19
  | .bytes _ => 20
  | .unassigned => 21
  | .err _ => 22

mutual

/-- `impl Ord for Document` (src/unstructured/src/lib.rs lines 271-296):
payload comparison on matching variants and the catch-all arm comparing
discriminants.  Note the source has **no** `(U128, U128)` and no
`(I128, I128)` arm: those pairs fall through to the discriminant comparison,
which makes any two `U128` (or any two `I128`) payloads compare `Equal`. -/
def cmp : DocU → DocU → Ordering
  | .bool x, .bool y => compare x y
  | .u8 x, .u8 y => compare x y
  | .u16 x, .u16 y => compare x y
  | .u32 x, .u32 y => compare x y
  | .u64 x, .u64 y => compare x y
  | .i8 x, .i8 y => compare x y
  | .i16 x, .i16 y => compare x y
  | .i32 x, .i32 y => compare x y
  | .i64 x, .i64 y => compare x y
  | .f32 x, .f32 y => compare x y
  | .f64 x, .f64 y => compare x y
  | .char x, .char y => compare x y
  | .str x, .str y => compare x y
  | .unit, .unit => .eq
  | .opt x, .opt y => cmpOpt x y
  | .newtype x, .newtype y => cmp x y
  | .seq x, .seq y => cmpList x y
  | .map x, .map y => cmpPairs x y
  | .bytes x, .bytes y => DocN.cmpBytes x y
  | x, y => compare x.disc y.disc

/-- Rust `Ord` on `Option<Box<Document>>`. -/
def cmpOpt : Option DocU → Option DocU → Ordering
  | none, none => .eq
  | none, some _ => .lt
  | some _, none => .gt
  | some a, some b => cmp a b

/-- Rust `Ord` on `Vec<Document>`: lexicographic. -/
def cmpList : List DocU → List DocU → Ordering
  | [], [] => .eq
  | [], _ :: _ => .lt
  | _ :: _, [] => .gt
  | a :: as_, b :: bs => (cmp a b).then (cmpList as_ bs)

/-- Rust `Ord` on `BTreeMap<Document, Document>`: lexicographic over the
in-order `(key, value)` pairs. -/
def cmpPairs : List (DocU × DocU) → List (DocU × DocU) → Ordering
  | [], [] => .eq
  | [], _ :: _ => .lt
  | _ :: _, [] => .gt
  | (k1, v1) :: r1, (k2, v2) :: r2 =>
      (cmp k1 k2).then ((cmp v1 v2).then (cmpPairs r1 r2))

end

mutual

/-- `impl PartialEq for Document` (src/unstructured/src/lib.rs lines
238-269): structural equality on matching variants; any other pair is
`false`.  The source has no `(Unassigned, Unassigned)` and no `(Err, Err)`
arm, so those pairs are **not** equal. -/
def beq : DocU → DocU → Bool
  | .bool x, .bool y => x == y
  | .u8 x, .u8 y => x == y
  | .u16 x, .u16 y => x == y
  | .u32 x, .u32 y => x == y
  | .u64 x, .u64 y => x == y
  | .u128 x, .u128 y => x == y
  | .i8 x, .i8 y => x == y
  | .i16 x, .i16 y => x == y
  | .i32 x, .i32 y => x == y
  | .i64 x, .i64 y => x == y
  | .i128 x, .i128 y => x == y
  | .f32 x, .f32 y => x == y
  | .f64 x, .f64 y => x == y
  | .char x, .char y => x == y
  | .str x, .str y => x == y
  | .unit, .unit => true
  | .opt x, .opt y => beqOpt x y
  | .newtype x, .newtype y => beq x y
  | .seq x, .seq y => beqList x y
  | .map x, .map y => beqPairs x y
  | .bytes x, .bytes y => DocN.beqBytes x y
  | _, _ => false

/-- Rust `PartialEq` on `Option<Box<Document>>`. -/
def beqOpt : Option DocU → Option DocU → Bool
  | none, none => true
  | some a, some b => beq a b
  | _, _ => false

/-- Rust `PartialEq` on `Vec<Document>`. -/
def beqList : List DocU → List DocU → Bool
  | [], [] => true
  | a :: as_, b :: bs => beq a b && beqList as_ bs
  | _, _ => false

/-- Rust `PartialEq` on `BTreeMap<Document, Document>`. -/
def beqPairs : List (DocU × DocU) → List (DocU × DocU) → Bool
  | [], [] => true
  | (k1, v1) :: r1, (k2, v2) :: r2 => beq k1 k2 && (beq v1 v2 && beqPairs r1 r2)
  | _, _ => false

end

/-- `BTreeMap::get` on the in-order entry list (query compared on the
left). -/
def mget (kvs : List (DocU × DocU)) (k : DocU) : Option DocU :=
  (kvs.find? (fun kv => cmp k kv.1 == .eq)).map (·.2)

/-- `BTreeMap::insert` / `entry(..).or_insert(..)` followed by assignment:
replace the value of the first `cmp`-equal entry (keeping the stored key) or
place the new entry at its ordered position. -/
def minsert : List (DocU × DocU) → DocU → DocU → List (DocU × DocU)
  | [], k, v => [(k, v)]
  | (k0, v0) :: rest, k, v =>
      match cmp k k0 with
      | .lt => (k, v) :: (k0, v0) :: rest
      | .eq => (k0, v) :: rest
      | .gt => (k0, v0) :: minsert rest k v

mutual

/-- `Document::merge` (src/unstructured/src/lib.rs lines 558-582): the same
three-rule case analysis as the core `Unstructured::merge`. -/
def merge : DocU → DocU → DocU
  | .seq s, .seq o => .seq (s ++ o)
  | .seq s, o => .seq (s ++ [o])
  | .map m, .map o => .map (mergeEntries m o)
  | .map _, o => o
  | _, o => o
termination_by _a b => (sizeOf b, 0)
decreasing_by all_goals (simp_wf; omega)

/-- The `for (key, val) in o.into_iter()` loop of `Document::merge`. -/
def mergeEntries : List (DocU × DocU) → List (DocU × DocU) → List (DocU × DocU)
  | m, [] => m
  | m, (k, v) :: rest =>
      mergeEntries
        (match mget m k with
         | some _ => mmergeAt m k v
         | none => minsert m k v)
        rest
termination_by _m l => (sizeOf l, 1)
decreasing_by all_goals (simp_wf; omega)

/-- `loc.merge(val)` through `BTreeMap::get_mut`: merge `v` into the value of
the first `cmp`-equal entry. -/
def mmergeAt : List (DocU × DocU) → DocU → DocU → List (DocU × DocU)
  | [], _, _ => []
  | (k0, v0) :: rest, k, v =>
      if cmp k k0 == .eq then (k0, merge v0 v) :: rest
      else (k0, v0) :: mmergeAt rest k v
termination_by kvs _ v => (sizeOf v + 1, sizeOf kvs)
decreasing_by all_goals (simp_wf; omega)

end

/-- `impl Index for usize`, `index_into` (src/unstructured/src/index.rs lines
18-24: `vec.get(i)` on a `Seq`, `None` otherwise), composed with
`ops::Index`'s `unwrap_or(Unit)`. -/
def opsIndexUsize (i : Nat) (v : DocU) : DocU :=
  match v with
  | .seq xs => (xs.get? i).getD .unit
  | _ => .unit

/-- `impl Index for str`, `index_into` (src/unstructured/src/index.rs lines
47-53: `map.get(&Document::String(..))` on a `Map`, `None` otherwise),
composed with `ops::Index`'s `unwrap_or(Unit)`. -/
def opsIndexStr (s : String) (v : DocU) : DocU :=
  match v with
  | .map kvs => (mget kvs (.str s)).getD .unit
  | _ => .unit

end DocU

/-- The flat token stream of the single-document selector grammar
(`Rule::index`, `Rule::ident`, `Rule::chars`, `Rule::EOI`), each carrying its
matched text. -/
inductive STok where
  | index (s : String)
  | ident (s : String)
  | chars (s : String)
  | eoi
  deriving DecidableEq

/-- The flat token stream of the multi-document filter grammar. -/
inductive FTok where
  | docIndex (s : String)
  | docWildcard
  | index (s : String)
  | ident (s : String)
  | chars (s : String)
  | range (s : String)
  | pipe
  | eoi
  deriving DecidableEq

/-- Rust `str::parse::<usize>` with 64-bit `usize`: an optional leading `+`,
then one or more digits, rejecting values of `2^64` or more. -/
def parseUsize (s : String) : Option Nat :=
  let ds := match s.data with
    | '+' :: r => r
    | r => r
  if ds.isEmpty || !ds.all Char.isDigit then none
  else
    let v := DocN.digitsToNat ds
    if v < 2 ^ 64 then some v else none

/-- `v.parse::<usize>().unwrap_or(0)`, as used on each half of a range
token. -/
def parseUsizeD (s : String) : Nat :=
  (parseUsize s).getD 0

/-- Rust `str::split(sep)` on a character list: `n` separators yield `n + 1`
pieces. -/
def splitOnChar (sep : Char) : List Char → List (List Char)
  | [] => [[]]
  | c :: r =>
      match splitOnChar sep r with
      | [] => [[]]
      | p :: rest => if c = sep then [] :: p :: rest else (c :: p) :: rest

/-- The `parse_range!` slice of src/unstructured/src/selector/parser.rs
(lines 91-113) on a `Seq` payload: both halves of the `:` token parsed with
`unwrap_or(0)`, the end clamped to the length (`0` also meaning the length),
a start at or past the length giving the empty sequence.  (For a start
strictly between end and length Rust's `&s[range[0]..range[1]]` panics; no
grammar-produced range exercised by a claim reaches that case, and the
embedding returns the empty slice there.) -/
def rangeSlice (xs : List DocU) (s : String) : List DocU :=
  let parts := (splitOnChar ':' s.data).map (fun cs => parseUsizeD (String.mk cs))
  let r0 := parts.getD 0 0
  let r1 := parts.getD 1 0
  let r1 := if r1 > xs.length || r1 == 0 then xs.length else r1
  if r0 ≥ xs.length then []
  else (xs.take r1).drop r0

/-- `Document::select` token loop (src/unstructured/src/selector/parser.rs
lines 129-142): `Rule::index` parses its text as `usize` (failure is an
error) and indexes through the never-failing `ops::Index`; `Rule::chars` and
`Rule::ident` index by string; `Rule::EOI` returns the current reference.
A step that fails to resolve yields the `Unit` sentinel, not an error. -/
def selectTokens : DocU → List STok → Except String DocU
  | cur, [] => .ok cur
  | cur, .eoi :: _ => .ok cur
  | cur, .index s :: rest =>
      match parseUsize s with
      | none => .error ("Parse failure: invalid digit string " ++ s ++ "!")
      | some i => selectTokens (DocU.opsIndexUsize i cur) rest
  | cur, .ident s :: rest => selectTokens (DocU.opsIndexStr s cur) rest
  | cur, .chars s :: rest => selectTokens (DocU.opsIndexStr s cur) rest

/-- Identifier characters of the selector grammar's bare `ident` steps. -/
def isIdentChar (c : Char) : Bool :=
  c.isAlphanum || c = '_'

/-- Modelled from the spec: the pest grammar file
`selector/grammar/selector.pest` is not under src/, so the single-document
selector surface syntax is modelled from the spec's EBNF (section 6):
`step := '.' ident | '.' '[' quoted_string ']' | '.' '[' digits ']'`,
flattened into the token stream the evaluator consumes, with `EOI` appended.
The fuel argument only bounds recursion by the input length. -/
def pSelSteps : Nat → List Char → Except String (List STok)
  | _, [] => .ok [.eoi]
  | 0, _ => .error "selector parse error: fuel exhausted"
  | fuel + 1, '.' :: rest =>
      match rest with
      | '[' :: '"' :: r2 =>
          let q := r2.span (fun c => !(c = '"'))
          match q.2 with
          | '"' :: ']' :: r3 =>
              (pSelSteps fuel r3).map (fun ts => .chars (String.mk q.1) :: ts)
          | _ => .error "selector parse error: unterminated quoted step"
      | '[' :: r2 =>
          let dsp := r2.span Char.isDigit
          match dsp.1, dsp.2 with
          | [], _ => .error "selector parse error: expected digits"
          | ds, ']' :: r3 =>
              (pSelSteps fuel r3).map (fun ts => .index (String.mk ds) :: ts)
          | _, _ => .error "selector parse error: missing closing bracket"
      | _ =>
          let idp := rest.span isIdentChar
          match idp.1 with
          | [] => .error "selector parse error: expected identifier"
          | c :: cs =>
              if c.isAlpha || c = '_' then
                (pSelSteps fuel idp.2).map
                  (fun ts => .ident (String.mk (c :: cs)) :: ts)
              else .error "selector parse error: identifier starts with a digit"
  | _ + 1, _ => .error "selector parse error: expected a step beginning with a dot"

/-- Modelled from the spec: entry point of the single-document selector
grammar. -/
def parseSel (s : String) : Except String (List STok) :=
  pSelSteps (s.data.length + 1) s.data

/-- `Document::select` (src/unstructured/src/selector/parser.rs lines
129-142): parse (grammar failure propagates as `Err`), then walk the token
stream. -/
def select (d : DocU) (sel : String) : Except String DocU :=
  match parseSel sel with
  | .error e => .error e
  | .ok ts => selectTokens d ts

/-- `Document::cast_i8` (the `impl_cast!` macro of src/unstructured/src/lib.rs
lines 334-363): only the ten integer variants are listed (no float arms), each
testing the `v == (v as i8) as S` round trip. -/
def DocU.castI8 : DocU → Option Int
  | .i8 v => if v = wrapI 8 (wrapI 8 v) then some (wrapI 8 v) else none
  | .i16 v => if v = wrapI 16 (wrapI 8 v) then some (wrapI 8 v) else none
  | .i32 v => if v = wrapI 32 (wrapI 8 v) then some (wrapI 8 v) else none
  | .i64 v => if v = wrapI 64 (wrapI 8 v) then some (wrapI 8 v) else none
  | .i128 v => if v = wrapI 128 (wrapI 8 v) then some (wrapI 8 v) else none
  | .u8 v => if v = wrapU 8 (wrapI 8 v) then some (wrapI 8 v) else none
  | .u16 v => if v = wrapU 16 (wrapI 8 v) then some (wrapI 8 v) else none
  | .u32 v => if v = wrapU 32 (wrapI 8 v) then some (wrapI 8 v) else none
  | .u64 v => if v = wrapU 64 (wrapI 8 v) then some (wrapI 8 v) else none
  | .u128 v => if v = wrapU 128 (wrapI 8 v) then some (wrapI 8 v) else none
  | _ => none

/-- The mutable evaluator state of `Document::filter`
(src/unstructured/src/selector/parser.rs lines 159-235): the accumulated
`result`, the optional owned override produced by range steps, the `current`
cursor (embedded by value), and the key path of named steps. -/
structure FState where
  result : DocU
  currentOwned : Option DocU
  current : DocU
  keyPath : List String

/-- The nested single-branch map built by the `pos` walk of the
`Rule::EOI | Rule::pipe` arm: each `pos[&path] = new_doc` inserts into a
fresh empty map (`tree` starts as `Map::default()`), so the walk produces a
chain of singleton maps with the leaf at the end. -/
def buildTree : List String → DocU → DocU
  | [], leaf => leaf
  | k :: ks, leaf => .map [(.str k, buildTree ks leaf)]

/-- The `Rule::EOI | Rule::pipe` arm of `Document::filter`: emit the clause's
selection into the accumulator.  With a non-empty key path the nested
single-branch map is built, its leaf being `Map::default() + selected`, and
merged whenever the whole tree differs from `Unit` (the tree is a `Map`, so
this guard never fires); with an empty key path the selected value itself is
merged unless it equals `Unit`.  `current` resets to `docs[0]` and the key
path clears. -/
def emitClause (docs : List DocU) (st : FState) : FState :=
  if st.keyPath.isEmpty then
    let temp := match st.currentOwned with
      | some s => s
      | none => st.current
    { result := if DocU.beq temp .unit then st.result else DocU.merge st.result temp,
      currentOwned := none,
      current := docs.headD .unit,
      keyPath := [] }
  else
    let leaf := DocU.merge (.map []) (match st.currentOwned with
      | some s => s
      | none => st.current)
    let tree := buildTree st.keyPath leaf
    { result := if DocU.beq tree .unit then st.result else DocU.merge st.result tree,
      currentOwned := none,
      current := docs.headD .unit,
      keyPath := [] }

/-- One token of the `Document::filter` loop (src/unstructured/src/selector/
parser.rs lines 167-232).  `docs` is non-empty whenever this runs. -/
def filterStep (docs : List DocU) (st : FState) : FTok → Except String FState
  | .docIndex s =>
      match parseUsize s with
      | none => .error ("Parse failure: invalid digit string " ++ s ++ "!")
      | some i =>
          if h : i < docs.length then .ok { st with current := docs[i] }
          else .error ("Document index of " ++ toString i ++ " is out of bounds")
  | .docWildcard =>
      .ok { st with result := docs.foldl DocU.merge st.result }
  | .index s =>
      match parseUsize s with
      | none => .error ("Parse failure: invalid digit string " ++ s ++ "!")
      | some i => .ok { st with current := DocU.opsIndexUsize i st.current }
  | .ident s =>
      let c := DocU.opsIndexStr s st.current
      .ok { st with
            current := c,
            keyPath := if DocU.beq c .unit then st.keyPath else st.keyPath ++ [s] }
  | .chars s =>
      let c := DocU.opsIndexStr s st.current
      .ok { st with
            current := c,
            keyPath := if DocU.beq c .unit then st.keyPath else st.keyPath ++ [s] }
  | .range s =>
      match st.current with
      | .seq xs => .ok { st with currentOwned := some (.seq (rangeSlice xs s)) }
      | _ => .error "Cannot take range on non-sequence value!"
  | .pipe => .ok (emitClause docs st)
  | .eoi => .ok (emitClause docs st)

/-- The `for selector in selection` loop of `Document::filter`. -/
def filterTokens (docs : List DocU) : List FTok → FState → Except String FState
  | [], st => .ok st
  | t :: rest, st =>
      match filterStep docs st t with
      | .error e => .error e
      | .ok st2 => filterTokens docs rest st2

/-- `Document::filter` (src/unstructured/src/selector/parser.rs lines
159-235), parameterized by the grammar (`p` stands for
`SelectorParser::parse(Rule::selector_filter, ..)` followed by flattening):
`result` starts as an empty `Map`, and the selector is parsed and evaluated
only when the input document list is non-empty. -/
def filterWith (p : String → Except String (List FTok)) (docs : List DocU)
    (sel : String) : Except String DocU :=
  if docs.isEmpty then .ok (.map [])
  else
    match p sel with
    | .error e => .error e
    | .ok toks =>
        match filterTokens docs toks
            { result := .map [], currentOwned := none,
              current := docs.headD .unit, keyPath := [] } with
        | .error e => .error e
        | .ok st => .ok st.result

/-- Modelled from the spec: the multi-document filter surface syntax (the
missing pest grammar), from the spec's EBNF (section 6) and section 4.4:
`clause ('|' clause)*`, `clause := doc_sel? step*`,
`doc_sel := '[' digits ']' | '*'`, with the additional range step
`'.' '[' digits? ':' digits? ']'`, flattened into the token stream the
evaluator consumes with `EOI` appended; whitespace between tokens is
skipped, as in the repository's doc examples.  The `Bool` argument tracks
whether a document selector is still legal (start of a clause); the fuel
only bounds recursion by the input length. -/
def pFil : Nat → Bool → List Char → Except String (List FTok)
  | _, _, [] => .ok [.eoi]
  | 0, _, _ => .error "filter selector parse error: fuel exhausted"
  | fuel + 1, atStart, cs0 =>
    match cs0.dropWhile (· = ' ') with
    | [] => .ok [.eoi]
    | '|' :: rest => (pFil fuel true rest).map (fun ts => .pipe :: ts)
    | '*' :: rest =>
        if atStart then (pFil fuel false rest).map (fun ts => .docWildcard :: ts)
        else .error "filter selector parse error: misplaced wildcard"
    | '[' :: rest =>
        if atStart then
          let dsp := rest.span Char.isDigit
          match dsp.1, dsp.2 with
          | [], _ => .error "filter selector parse error: expected digits"
          | ds, ']' :: r3 =>
              (pFil fuel false r3).map (fun ts => .docIndex (String.mk ds) :: ts)
          | _, _ => .error "filter selector parse error: missing closing bracket"
        else .error "filter selector parse error: misplaced document selector"
    | '.' :: rest =>
        match rest with
        | '[' :: '"' :: r2 =>
            let q := r2.span (fun c => !(c = '"'))
            match q.2 with
            | '"' :: ']' :: r3 =>
                (pFil fuel false r3).map (fun ts => .chars (String.mk q.1) :: ts)
            | _ => .error "filter selector parse error: unterminated quoted step"
        | '[' :: r2 =>
            let dsp := r2.span Char.isDigit
            match dsp.2 with
            | ':' :: r3 =>
                let dsp2 := r3.span Char.isDigit
                match dsp2.2 with
                | ']' :: r4 =>
                    (pFil fuel false r4).map
                      (fun ts => .range (String.mk (dsp.1 ++ ':' :: dsp2.1)) :: ts)
                | _ => .error "filter selector parse error: bad range step"
            | ']' :: r3 =>
                match dsp.1 with
                | [] => .error "filter selector parse error: expected digits"
                | ds => (pFil fuel false r3).map (fun ts => .index (String.mk ds) :: ts)
            | _ => .error "filter selector parse error: bad bracket step"
        | _ =>
            let idp := rest.span isIdentChar
            match idp.1 with
            | [] => .error "filter selector parse error: expected identifier"
            | c :: cs =>
                if c.isAlpha || c = '_' then
                  (pFil fuel false idp.2).map
                    (fun ts => .ident (String.mk (c :: cs)) :: ts)
                else .error "filter selector parse error: identifier starts with a digit"
    | _ => .error "filter selector parse error: unexpected character"

/-- Modelled from the spec: entry point of the filter grammar. -/
def parseFil (s : String) : Except String (List FTok) :=
  pFil (s.data.length + 1) true s.data

/-- `Document::filter` with the modelled grammar. -/
def filter (docs : List DocU) (sel : String) : Except String DocU :=
  filterWith parseFil docs sel

/-- `Document::is_unit` (src/unstructured/src/lib.rs). -/
def DocU.isUnit : DocU → Bool
  | .unit => true
  | _ => false
/-- The older `Document` enum of `src/src/lib.rs` (no 128-bit, `Unassigned`
or `Err` variants), carrier of the JSON pointer implementation in
`src/src/selector/mod.rs`. -/
inductive Doc0 where
  | bool (b : Bool)
  | u8 (v : Int)
  | u16 (v : Int)
  | u32 (v : Int)
  | u64 (v : Int)
  | i8 (v : Int)
  | i16 (v : Int)
  | i32 (v : Int)
  | i64 (v : Int)
  | f32 (x : Rat)
  | f64 (x : Rat)
  | char (c : Char)
  | str (s : String)
  | unit
  | opt (o : Option Doc0)
  | newtype (d : Doc0)
  | seq (xs : List Doc0)
  | map (kvs : List (Doc0 × Doc0))
  | bytes (bs : List Nat)

namespace Doc0

/-- `Document::discriminant` (src/src/lib.rs). -/
def disc : Doc0 → Nat
  | .bool _ => 0
  | .u8 _ => 1
  | .u16 _ => 2
  | .u32 _ => 3
  | .u64 _ => 4
  | .i8 _ => 5
  | .i16 _ => 6
  | .i32 _ => 7
  | .i64 _ => 8
  | .f32 _ => 9
  | .f64 _ => 10
  | .char _ => 11
  | .str _ => 12
  | .unit => 13
  | .opt _ => 14
  | .newtype _ => 15
  | .seq _ => 16
  | .map _ => 17
  | .bytes _ => 18

mutual

/-- `impl Ord for Document` (src/src/lib.rs): payload comparison on matching
variants and the catch-all arm comparing discriminants. -/
def cmp : Doc0 → Doc0 → Ordering
  | .bool x, .bool y => compare x y
  | .u8 x, .u8 y => compare x y
  | .u16 x, .u16 y => compare x y
  | .u32 x, .u32 y => compare x y
  | .u64 x, .u64 y => compare x y
  | .i8 x, .i8 y => compare x y
  | .i16 x, .i16 y => compare x y
  | .i32 x, .i32 y => compare x y
  | .i64 x, .i64 y => compare x y
  | .f32 x, .f32 y => compare x y
  | .f64 x, .f64 y => compare x y
  | .char x, .char y => compare x y
  | .str x, .str y => compare x y
  | .unit, .unit => .eq
  | .opt x, .opt y => cmpOpt x y
  | .newtype x, .newtype y => cmp x y
  | .seq x, .seq y => cmpList x y
  | .map x, .map y => cmpPairs x y
  | .bytes x, .bytes y => DocN.cmpBytes x y
  | x, y => compare x.disc y.disc

/-- Rust `Ord` on `Option<Box<Document>>`. -/
def cmpOpt : Option Doc0 → Option Doc0 → Ordering
  | none, none => .eq
  | none, some _ => .lt
  | some _, none => .gt
  | some a, some b => cmp a b

/-- Rust `Ord` on `Vec<Document>`: lexicographic. -/
def cmpList : List Doc0 → List Doc0 → Ordering
  | [], [] => .eq
  | [], _ :: _ => .lt
  | _ :: _, [] => .gt
  | a :: as_, b :: bs => (cmp a b).then (cmpList as_ bs)

/-- Rust `Ord` on `BTreeMap<Document, Document>`: lexicographic over the
in-order pairs. -/
def cmpPairs : List (Doc0 × Doc0) → List (Doc0 × Doc0) → Ordering
  | [], [] => .eq
  | [], _ :: _ => .lt
  | _ :: _, [] => .gt
  | (k1, v1) :: r1, (k2, v2) :: r2 =>
      (cmp k1 k2).then ((cmp v1 v2).then (cmpPairs r1 r2))

end

/-- `BTreeMap::get` on the in-order entry list (query compared on the
left). -/
def mget (kvs : List (Doc0 × Doc0)) (k : Doc0) : Option Doc0 :=
  (kvs.find? (fun kv => cmp k kv.1 == .eq)).map (·.2)

/-- `str::replace("~1", "/")`: left-to-right, non-overlapping. -/
def replTilde1 : List Char → List Char
  | [] => []
  | '~' :: '1' :: r => '/' :: replTilde1 r
  | c :: r => c :: replTilde1 r

/-- `str::replace("~0", "~")`: left-to-right, non-overlapping. -/
def replTilde0 : List Char → List Char
  | [] => []
  | '~' :: '0' :: r => '~' :: replTilde0 r
  | c :: r => c :: replTilde0 r

/-- The token list of `Document::pointer`
(src/src/selector/mod.rs lines 14-17): split on `/`, skip the leading empty
segment, unescape `~1` to `/` and then `~0` to `~`. -/
def pointerTokens (s : String) : List String :=
  ((splitOnChar '/' s.data).drop 1).map
    (fun cs => String.mk (replTilde0 (replTilde1 cs)))

/-- `parse_index` (src/src/selector/mod.rs lines 69-74): a token with a
leading `+`, or a leading `0` of length greater than one, is rejected;
otherwise `str::parse::<usize>`. -/
def parseIndex (t : String) : Option Nat :=
  match t.data with
  | '+' :: _ => none
  | '0' :: _ :: _ => none
  | _ => parseUsize t

/-- The `for token in tokens` loop of `Document::pointer`: a `Map` is
addressed by `map.get(&token.into())` (a `String` key), a `Seq` by
`parse_index` then `list.get`; any other shape, or any failed step, returns
`None`. -/
def walk : Doc0 → List String → Option Doc0
  | d, [] => some d
  | .map kvs, t :: ts => (mget kvs (.str t)).bind (fun c => walk c ts)
  | .seq xs, t :: ts =>
      ((parseIndex t).bind (fun i => xs.get? i)).bind (fun c => walk c ts)
  | _, _ :: _ => none

/-- `Document::pointer` (src/src/selector/mod.rs lines 7-33): the empty
string selects the root, a non-empty pointer must start with `/`, and the
unescaped segments are applied in order.  A pure function of `&self`: the
document is never modified. -/
def pointer (d : Doc0) (s : String) : Option Doc0 :=
  if s.data = [] then some d
  else if s.data.head? = some '/' then walk d (pointerTokens s)
  else none

end Doc0

/-! Arithmetic helper lemmas about the wrapping casts. -/

theorem wrapI8_spec (v : Int) :
    -128 ≤ wrapI 8 v ∧ wrapI 8 v ≤ 127 ∧ (v - wrapI 8 v) % 256 = 0 := by
  unfold wrapI; norm_num; omega

theorem wrapI8_small (r : Int) (h1 : -128 ≤ r) (h2 : r ≤ 127) : wrapI 8 r = r := by
  unfold wrapI; norm_num; omega

theorem wrapI16_small (r : Int) (h1 : -32768 ≤ r) (h2 : r ≤ 32767) : wrapI 16 r = r := by
  unfold wrapI; norm_num; omega

theorem wrapI32_small (r : Int) (h1 : -2147483648 ≤ r) (h2 : r ≤ 2147483647) :
    wrapI 32 r = r := by
  unfold wrapI; norm_num; omega

theorem wrapI64_small (r : Int) (h1 : -(2 ^ 63) ≤ r) (h2 : r ≤ 2 ^ 63 - 1) :
    wrapI 64 r = r := by
  unfold wrapI; norm_num; omega

theorem wrapI128_small (r : Int) (h1 : -(2 ^ 127) ≤ r) (h2 : r ≤ 2 ^ 127 - 1) :
    wrapI 128 r = r := by
  unfold wrapI; norm_num; omega

theorem wrapU8_i8 (r : Int) (h1 : -128 ≤ r) (h2 : r ≤ 127) :
    wrapU 8 r = if 0 ≤ r then r else r + 256 := by
  unfold wrapU; norm_num; split <;> omega

theorem wrapU16_i8 (r : Int) (h1 : -128 ≤ r) (h2 : r ≤ 127) :
    wrapU 16 r = if 0 ≤ r then r else r + 65536 := by
  unfold wrapU; norm_num; split <;> omega

theorem wrapU32_i8 (r : Int) (h1 : -128 ≤ r) (h2 : r ≤ 127) :
    wrapU 32 r = if 0 ≤ r then r else r + 4294967296 := by
  unfold wrapU; norm_num; split <;> omega

theorem wrapU64_i8 (r : Int) (h1 : -128 ≤ r) (h2 : r ≤ 127) :
    wrapU 64 r = if 0 ≤ r then r else r + 2 ^ 64 := by
  unfold wrapU; norm_num; split <;> omega

theorem wrapU128_i8 (r : Int) (h1 : -128 ≤ r) (h2 : r ≤ 127) :
    wrapU 128 r = if 0 ≤ r then r else r + 2 ^ 128 := by
  unfold wrapU; norm_num; split <;> omega

/-- An `asUsize` result certifies a `Number` index. -/
theorem isNumber_of_asUsize {idx : DocN} {i : Nat} (h : idx.asUsize = some i) :
    idx.isNumber = true := by
  cases idx <;> simp [DocN.asUsize, DocN.isNumber] at h ⊢

/-- C1: merge follows the three-rule case analysis on self's shape: `Seq`
with `Seq` appends; `Seq` with a non-`Seq` pushes one trailing element; `Map`
with `Map` folds the right entries in, recursively merging on an existing key
and inserting an absent one; in every other case (including `Map` with a
non-`Map`) the right operand replaces the left. -/
theorem merge_case_analysis :
    (∀ xs ys, DocN.merge (.seq xs) (.seq ys) = .seq (xs ++ ys)) ∧
    (∀ xs b, (∀ ys, b ≠ .seq ys) → DocN.merge (.seq xs) b = .seq (xs ++ [b])) ∧
    (∀ m o, DocN.merge (.map m) (.map o) = .map (DocN.mergeEntries m o)) ∧
    (∀ m k v rest w, DocN.mget m k = some w →
        DocN.mergeEntries m ((k, v) :: rest) =
          DocN.mergeEntries (DocN.mmergeAt m k v) rest) ∧
    (∀ m k v rest, DocN.mget m k = none →
        DocN.mergeEntries m ((k, v) :: rest) =
          DocN.mergeEntries (DocN.minsert m k v) rest) ∧
    (∀ m, DocN.mergeEntries m [] = m) ∧
    (∀ a b, (∀ xs, a ≠ .seq xs) → (∀ kvs, a ≠ .map kvs) → DocN.merge a b = b) ∧
    (∀ m b, (∀ kvs, b ≠ .map kvs) → DocN.merge (.map m) b = b) := by
  refine ⟨?_, ?_, ?_, ?_, ?_, ?_, ?_, ?_⟩
  · intro xs ys; simp [DocN.merge]
  · intro xs b hb
    cases b <;> simp [DocN.merge]
    exact absurd rfl (hb _)
  · intro m o; simp [DocN.merge]
  · intro m k v rest w h
    rw [DocN.mergeEntries, h]
  · intro m k v rest h
    rw [DocN.mergeEntries, h]
  · intro m; rw [DocN.mergeEntries]
  · intro a b h1 h2
    cases a
    case seq xs => exact absurd rfl (h1 _)
    case map kvs => exact absurd rfl (h2 _)
    all_goals (cases b <;> simp [DocN.merge])
  · intro m b hb
    cases b <;> first
      | exact absurd rfl (hb _)
      | simp [DocN.merge]

/-- Witness for `merge_case_analysis` at concrete inputs. -/
theorem merge_case_analysis_witness :
    DocN.merge (.seq [.null]) (.bool true) = .seq [.null, .bool true] ∧
    DocN.mergeEntries [(.str "k", .null)] [(.str "k", .bool true)] =
      DocN.mergeEntries (DocN.mmergeAt [(.str "k", .null)] (.str "k") (.bool true)) [] ∧
    DocN.mergeEntries [(.str "k", .null)] [(.str "j", .bool true)] =
      DocN.mergeEntries (DocN.minsert [(.str "k", .null)] (.str "j") (.bool true)) [] ∧
    DocN.merge (.bool false) .null = .null ∧
    DocN.merge (.map []) (.bool true) = .bool true := by
  refine ⟨?_, ?_, ?_, ?_, ?_⟩
  · exact merge_case_analysis.2.1 [.null] (.bool true) (fun ys h => DocN.noConfusion h)
  · exact merge_case_analysis.2.2.2.1 _ _ _ _ (.null)
      (by simp [DocN.mget, DocN.cmp]; decide)
  · exact merge_case_analysis.2.2.2.2.1 _ _ _ _
      (by simp [DocN.mget, DocN.cmp]; decide)
  · exact merge_case_analysis.2.2.2.2.2.2.1 (.bool false) .null
      (fun xs h => DocN.noConfusion h) (fun kvs h => DocN.noConfusion h)
  · exact merge_case_analysis.2.2.2.2.2.2.2 [] (.bool true)
      (fun kvs h => DocN.noConfusion h)

/-- C2: at the concrete failing input `a = Number(U8(5))`,
`b = Number(U128(261))` the order is not antisymmetric: `cmp a b = Equal` but
`cmp b a = Greater`, because `cmp` truncates the right operand to the left
operand's width instead of widening the narrower operand, so `cmp` is not a
strict total order (refuting the claim's contract). -/
theorem cmp_not_total_order_at_failing_input :
    DocN.cmp (.num (.u8 5)) (.num (.u128 261)) = .eq ∧
    DocN.cmp (.num (.u128 261)) (.num (.u8 5)) = .gt := by
  constructor
  · simp [DocN.cmp, NumberZ.cmp, NumberZ.toU8, wrapU]
    all_goals decide
  · simp [DocN.cmp, NumberZ.cmp, NumberZ.toU128, wrapU]
    all_goals decide

/-- C3: the spec's two documented examples hold (`U8(1) == F64(1.0)` is true,
`U8(5) == U128(1)` is false), but cross-width equality converts the right
operand to the left operand's width (truncating), so it does not agree with
mathematical equality and is not symmetric: `U8(5) == U128(261)` is true
while `U128(261) == U8(5)` is false. -/
theorem doc_eq_truncates_at_failing_input :
    DocN.beq (.num (.u8 1)) (.num (.f64 1)) = true ∧
    DocN.beq (.num (.u8 5)) (.num (.u128 1)) = false ∧
    DocN.beq (.num (.u8 5)) (.num (.u128 261)) = true ∧
    DocN.beq (.num (.u128 261)) (.num (.u8 5)) = false := by
  refine ⟨?_, ?_, ?_, ?_⟩ <;>
    simp [DocN.beq, NumberZ.beq, NumberZ.toU8, NumberZ.toU128, wrapU,
      ratAsInt, ratTrunc]

/-- C4 counterexample: writing at numeric index 5 into an empty `Seq` does
not pad with `Null` up to position 5; a single slot is appended and the value
lands at position 0. -/
theorem indexOrInsert_no_padding_cex :
    DocN.indexOrInsert (.seq []) (.num (.u64 5)) (.bool true) =
      some (.seq [.bool true]) ∧
    DocN.seq [.bool true] ≠
      DocN.seq [.null, .null, .null, .null, .null, .bool true] := by
  exact ⟨rfl, by simp⟩

/-- C4 amended: a numeric index on a node that is neither `Seq` nor `Map`
overwrites it with an empty `Seq` (the write then lands at position 0); a
numeric write into a `Seq` is in place when in bounds and otherwise appends
exactly one slot at the old length (no `Null` padding, the value is not at
the requested position); a `Map` is never reshaped (a numeric index becomes a
map key); a non-numeric index on a non-`Map` overwrites the node with a map
holding just the new pair. -/
theorem indexOrInsert_amended :
    (∀ (v idx val : DocN) (i : Nat), idx.asUsize = some i →
        v.isSeq = false → v.isMap = false →
        DocN.indexOrInsert v idx val = some (.seq [val])) ∧
    (∀ (xs : List DocN) (idx val : DocN) (i : Nat), idx.asUsize = some i →
        xs.length ≤ i →
        DocN.indexOrInsert (.seq xs) idx val = some (.seq (xs ++ [val]))) ∧
    (∀ (xs : List DocN) (idx val : DocN) (i : Nat), idx.asUsize = some i →
        i < xs.length →
        DocN.indexOrInsert (.seq xs) idx val = some (.seq (xs.set i val))) ∧
    (∀ (kvs : List (DocN × DocN)) (idx val : DocN),
        DocN.indexOrInsert (.map kvs) idx val =
          some (.map (DocN.minsert kvs idx val))) ∧
    (∀ (v idx val : DocN), idx.isNumber = false → v.isMap = false →
        DocN.indexOrInsert v idx val = some (.map (DocN.minsert [] idx val))) := by
  refine ⟨?_, ?_, ?_, ?_, ?_⟩
  · intro v idx val i h hv1 hv2
    have hn := isNumber_of_asUsize h
    simp [DocN.indexOrInsert, hn, hv1, hv2, h]
  · intro xs idx val i h hl
    have hn := isNumber_of_asUsize h
    simp [DocN.indexOrInsert, DocN.isSeq, hn, h, hl]
  · intro xs idx val i h hl
    have hn := isNumber_of_asUsize h
    simp [DocN.indexOrInsert, DocN.isSeq, hn, h, Nat.not_le.mpr hl, hl]
  · intro kvs idx val
    cases hn : idx.isNumber <;> simp [DocN.indexOrInsert, DocN.isMap, hn]
  · intro v idx val hn hv
    simp [DocN.indexOrInsert, hn, hv]

/-- Witness for `indexOrInsert_amended` at concrete inputs. -/
theorem indexOrInsert_amended_witness :
    DocN.indexOrInsert .null (.num (.u64 0)) (.bool true) =
      some (.seq [.bool true]) ∧
    DocN.indexOrInsert (.seq [.null]) (.num (.u64 7)) (.bool true) =
      some (.seq [.null, .bool true]) ∧
    DocN.indexOrInsert (.seq [.null, .null]) (.num (.u64 1)) (.bool true) =
      some (.seq [.null, .bool true]) ∧
    DocN.indexOrInsert (.map []) (.num (.u64 3)) (.bool true) =
      some (.map (DocN.minsert [] (.num (.u64 3)) (.bool true))) ∧
    DocN.indexOrInsert (.seq [.null]) (.str "k") (.bool true) =
      some (.map (DocN.minsert [] (.str "k") (.bool true))) := by
  refine ⟨?_, ?_, ?_, ?_, ?_⟩
  · exact indexOrInsert_amended.1 .null (.num (.u64 0)) (.bool true) 0 rfl rfl rfl
  · exact indexOrInsert_amended.2.1 [.null] (.num (.u64 7)) (.bool true) 7 rfl
      (by simp)
  · exact indexOrInsert_amended.2.2.1 [.null, .null] (.num (.u64 1)) (.bool true) 1
      rfl (by simp)
  · exact indexOrInsert_amended.2.2.2.1 [] (.num (.u64 3)) (.bool true)
  · exact indexOrInsert_amended.2.2.2.2 (.seq [.null]) (.str "k") (.bool true)
      rfl rfl

/-- C5: reading `d[idx]` through `ops::Index` is a total function that never
produces an error: for every document and every index it returns either the
`Null` sentinel or an existing immediate child of `d` (a `Seq` element or a
`Map` entry value). -/
theorem opsIndex_never_fails :
    ∀ (d idx : DocN), DocN.opsIndex d idx = .null ∨
      DocN.IsChild (DocN.opsIndex d idx) d := by
  intro d idx
  cases d <;> simp [DocN.opsIndex, DocN.indexInto, DocN.IsChild]
  case seq xs =>
    cases h : idx.asUsize with
    | none => simp
    | some i =>
      by_cases hl : xs.length ≤ i
      · simp [hl]
      · simp [hl]
        cases hg : xs[i]? with
        | none => simp
        | some x =>
          right
          simpa using List.getElem?_mem hg
  case map kvs =>
    simp [DocN.mget]
    cases hf : List.find? (fun kv => DocN.cmp idx kv.1 == .eq) kvs with
    | none => simp
    | some kv =>
      simp
      right
      exact ⟨kv.1, List.mem_of_find?_eq_some hf⟩

/-- C9: a numeric cast to `i8` returns `Some` exactly when the Rust-`as`
round trip target-and-back reproduces the original representation, `None`
otherwise.  Solved out per source width: a signed source succeeds exactly on
values in `[-128, 127]` (unchanged); an unsigned source of width `w` succeeds
exactly on `[0, 127]` (unchanged) and on the top window `[2^w - 128, 2^w)`
(where the round trip is also exact and the result re-interprets the bits as
a negative `i8`).  In particular `I32(300)` casts to `None` and `I32(100)` to
`Some(100)`. -/
theorem castI8_lossless :
    (∀ v : Int, DocN.castI8 (.num (.i8 v)) =
        if -128 ≤ v ∧ v ≤ 127 then some v else none) ∧
    (∀ v : Int, DocN.castI8 (.num (.i16 v)) =
        if -128 ≤ v ∧ v ≤ 127 then some v else none) ∧
    (∀ v : Int, DocN.castI8 (.num (.i32 v)) =
        if -128 ≤ v ∧ v ≤ 127 then some v else none) ∧
    (∀ v : Int, DocN.castI8 (.num (.i64 v)) =
        if -128 ≤ v ∧ v ≤ 127 then some v else none) ∧
    (∀ v : Int, DocN.castI8 (.num (.i128 v)) =
        if -128 ≤ v ∧ v ≤ 127 then some v else none) ∧
    (∀ v : Int, 0 ≤ v → v < 2 ^ 8 → DocN.castI8 (.num (.u8 v)) =
        if v ≤ 127 then some v else some (v - 2 ^ 8)) ∧
    (∀ v : Int, 0 ≤ v → v < 2 ^ 16 → DocN.castI8 (.num (.u16 v)) =
        if v ≤ 127 then some v
        else if 2 ^ 16 - 128 ≤ v then some (v - 2 ^ 16) else none) ∧
    (∀ v : Int, 0 ≤ v → v < 2 ^ 32 → DocN.castI8 (.num (.u32 v)) =
        if v ≤ 127 then some v
        else if 2 ^ 32 - 128 ≤ v then some (v - 2 ^ 32) else none) ∧
    (∀ v : Int, 0 ≤ v → v < 2 ^ 64 → DocN.castI8 (.num (.u64 v)) =
        if v ≤ 127 then some v
        else if 2 ^ 64 - 128 ≤ v then some (v - 2 ^ 64) else none) ∧
    (∀ v : Int, 0 ≤ v → v < 2 ^ 128 → DocN.castI8 (.num (.u128 v)) =
        if v ≤ 127 then some v
        else if 2 ^ 128 - 128 ≤ v then some (v - 2 ^ 128) else none) ∧
    DocN.castI8 (.num (.i32 300)) = none ∧
    DocN.castI8 (.num (.i32 100)) = some 100 := by
  have signed :
      ∀ (f : Int → Option Int),
        (∀ v : Int, f v =
          if v = wrapI 8 v then some (wrapI 8 v) else none) →
        ∀ v : Int, f v = if -128 ≤ v ∧ v ≤ 127 then some v else none := by
    intro f hf v
    obtain ⟨hb1, hb2, hc⟩ := wrapI8_spec v
    rw [hf v]
    by_cases h : -128 ≤ v ∧ v ≤ 127
    · have he : wrapI 8 v = v := by omega
      rw [he]; simp [h]
    · have hne : ¬ (v = wrapI 8 v) := by omega
      rw [if_neg hne, if_neg h]
  refine ⟨?_, ?_, ?_, ?_, ?_, ?_, ?_, ?_, ?_, ?_, ?_, ?_⟩
  · refine signed _ (fun v => ?_)
    obtain ⟨hb1, hb2, _⟩ := wrapI8_spec v
    simp only [DocN.castI8]
    rw [wrapI8_small _ hb1 hb2]
  · refine signed _ (fun v => ?_)
    obtain ⟨hb1, hb2, _⟩ := wrapI8_spec v
    simp only [DocN.castI8]
    rw [wrapI16_small _ (by omega) (by omega)]
  · refine signed _ (fun v => ?_)
    obtain ⟨hb1, hb2, _⟩ := wrapI8_spec v
    simp only [DocN.castI8]
    rw [wrapI32_small _ (by omega) (by omega)]
  · refine signed _ (fun v => ?_)
    obtain ⟨hb1, hb2, _⟩ := wrapI8_spec v
    simp only [DocN.castI8]
    rw [wrapI64_small _ (by norm_num; omega) (by norm_num; omega)]
  · refine signed _ (fun v => ?_)
    obtain ⟨hb1, hb2, _⟩ := wrapI8_spec v
    simp only [DocN.castI8]
    rw [wrapI128_small _ (by norm_num; omega) (by norm_num; omega)]
  · intro v h0 h1
    obtain ⟨hb1, hb2, hc⟩ := wrapI8_spec v
    simp only [DocN.castI8]
    rw [wrapU8_i8 _ hb1 hb2]
    norm_num at h1 ⊢
    by_cases hA : v ≤ 127
    · have he : wrapI 8 v = v := by omega
      rw [he, if_pos h0, if_pos rfl, if_pos hA]
    · have he : wrapI 8 v = v - 256 := by omega
      rw [he, if_neg (show ¬ (0 ≤ v - 256) by omega),
        if_pos (show v = v - 256 + 256 by ring), if_neg hA]
  · intro v h0 h1
    obtain ⟨hb1, hb2, hc⟩ := wrapI8_spec v
    simp only [DocN.castI8]
    rw [wrapU16_i8 _ hb1 hb2]
    norm_num at h1 ⊢
    by_cases hA : v ≤ 127
    · have he : wrapI 8 v = v := by omega
      rw [he, if_pos h0, if_pos rfl, if_pos hA]
    · by_cases hB : 65408 ≤ v
      · have he : wrapI 8 v = v - 65536 := by omega
        rw [he, if_neg (show ¬ (0 ≤ v - 65536) by omega),
          if_pos (show v = v - 65536 + 65536 by ring), if_neg hA, if_pos hB]
      · have hne : ¬ (v = if 0 ≤ wrapI 8 v then wrapI 8 v else wrapI 8 v + 65536) := by
          split <;> omega
        rw [if_neg hne, if_neg hA, if_neg hB]
  · intro v h0 h1
    obtain ⟨hb1, hb2, hc⟩ := wrapI8_spec v
    simp only [DocN.castI8]
    rw [wrapU32_i8 _ hb1 hb2]
    norm_num at h1 ⊢
    by_cases hA : v ≤ 127
    · have he : wrapI 8 v = v := by omega
      rw [he, if_pos h0, if_pos rfl, if_pos hA]
    · by_cases hB : 4294967168 ≤ v
      · have he : wrapI 8 v = v - 4294967296 := by omega
        rw [he, if_neg (show ¬ (0 ≤ v - 4294967296) by omega),
          if_pos (show v = v - 4294967296 + 4294967296 by ring), if_neg hA, if_pos hB]
      · have hne : ¬ (v = if 0 ≤ wrapI 8 v then wrapI 8 v else wrapI 8 v + 4294967296) := by
          split <;> omega
        rw [if_neg hne, if_neg hA, if_neg hB]
  · intro v h0 h1
    obtain ⟨hb1, hb2, hc⟩ := wrapI8_spec v
    simp only [DocN.castI8]
    rw [wrapU64_i8 _ hb1 hb2]
    norm_num at h1 ⊢
    by_cases hA : v ≤ 127
    · have he : wrapI 8 v = v := by omega
      rw [he, if_pos h0, if_pos rfl, if_pos hA]
    · by_cases hB : (18446744073709551488 : Int) ≤ v
      · have he : wrapI 8 v = v - 18446744073709551616 := by omega
        rw [he, if_neg (show ¬ (0 ≤ v - 18446744073709551616) by omega),
          if_pos (show v = v - 18446744073709551616 + 18446744073709551616 by ring),
          if_neg hA, if_pos hB]
      · have hne : ¬ (v = if 0 ≤ wrapI 8 v then wrapI 8 v
            else wrapI 8 v + 18446744073709551616) := by
          split <;> omega
        rw [if_neg hne, if_neg hA, if_neg hB]
  · intro v h0 h1
    obtain ⟨hb1, hb2, hc⟩ := wrapI8_spec v
    simp only [DocN.castI8]
    rw [wrapU128_i8 _ hb1 hb2]
    norm_num at h1 ⊢
    by_cases hA : v ≤ 127
    · have he : wrapI 8 v = v := by omega
      rw [he, if_pos h0, if_pos rfl, if_pos hA]
    · by_cases hB : (340282366920938463463374607431768211328 : Int) ≤ v
      · have he : wrapI 8 v = v - 340282366920938463463374607431768211456 := by omega
        rw [he,
          if_neg (show ¬ (0 ≤ v - 340282366920938463463374607431768211456) by omega),
          if_pos (show v = v - 340282366920938463463374607431768211456 +
            340282366920938463463374607431768211456 by ring),
          if_neg hA, if_pos hB]
      · have hne : ¬ (v = if 0 ≤ wrapI 8 v then wrapI 8 v
            else wrapI 8 v + 340282366920938463463374607431768211456) := by
          split <;> omega
        rw [if_neg hne, if_neg hA, if_neg hB]
  · decide
  · decide

/-- Witness for castI8_lossless at concrete inputs. -/
theorem castI8_lossless_witness :
    DocN.castI8 (.num (.u16 65500)) = some (-36) ∧
    DocN.castI8 (.num (.u8 200)) = some (-56) ∧
    DocN.castI8 (.num (.u32 500)) = none := by
  refine ⟨?_, ?_, ?_⟩
  · have h := castI8_lossless.2.2.2.2.2.2.1 65500 (by norm_num) (by norm_num)
    rw [h]; norm_num
  · have h := castI8_lossless.2.2.2.2.2.1 200 (by norm_num) (by norm_num)
    rw [h]; norm_num
  · have h := castI8_lossless.2.2.2.2.2.2.2.1 500 (by norm_num) (by norm_num)
    rw [h]; norm_num


/-! Evaluation helpers for the flat `Document`'s recursive functions. -/

set_option maxHeartbeats 1000000 in
theorem cmpU_str_eval (s t : String) : DocU.cmp (.str s) (.str t) = compare s t := by
  simp only [DocU.cmp]

set_option maxHeartbeats 1000000 in
theorem DocU.beq_unit_right (d : DocU) : DocU.beq d .unit = DocU.isUnit d := by
  cases d <;> simp only [DocU.beq, DocU.isUnit]

/-- C6 counterexample: selecting a path whose step fails to resolve (`missing`
on an empty map) does not abort with an error; the call returns `Ok` of the
`Unit` sentinel. -/
theorem select_missing_step_cex :
    select (.map []) ".missing" = .ok .unit := rfl

/-- C6 amended: select propagates grammar parse failures as `Err` (and an
index token whose text does not parse as `usize` is also an error), but a
step that fails to resolve is not an error: indexing degrades to the `Unit`
sentinel and the walk always returns `Ok` when every index token parses. -/
theorem select_amended :
    (∀ (d : DocU) (s e : String), parseSel s = .error e → select d s = .error e) ∧
    (∀ (d : DocU) (ts : List STok),
        (∀ s, STok.index s ∈ ts → (parseUsize s).isSome) →
        ∃ r, selectTokens d ts = .ok r) ∧
    select (.map []) ".missing" = .ok .unit := by
  refine ⟨?_, ?_, rfl⟩
  · intro d s e h
    simp [select, h]
  · intro d ts
    induction ts generalizing d with
    | nil => exact fun _ => ⟨d, rfl⟩
    | cons t rest ih =>
      intro h
      cases t with
      | eoi => exact ⟨d, rfl⟩
      | index s =>
          have hs : (parseUsize s).isSome := h s (by simp)
          obtain ⟨i, hi⟩ := Option.isSome_iff_exists.mp hs
          rw [selectTokens, hi]
          exact ih _ (fun s hmem => h s (by simp [hmem]))
      | ident s =>
          rw [selectTokens]
          exact ih _ (fun s hmem => h s (by simp [hmem]))
      | chars s =>
          rw [selectTokens]
          exact ih _ (fun s hmem => h s (by simp [hmem]))

/-- Witness for select_amended at concrete inputs. -/
theorem select_amended_witness :
    select .unit "x" = .error "selector parse error: expected a step beginning with a dot" ∧
    (∃ r, selectTokens .unit [.ident "a", .eoi] = .ok r) := by
  constructor
  · exact select_amended.1 .unit "x" _ rfl
  · exact select_amended.2.1 .unit [.ident "a", .eoi] (by intro s hs; simp at hs)

/-- C7: at the failing input `docs = [{"a": true}]`, selector `"[0].a.b"`,
the clause's selected value is the `Unit` sentinel (the path dies at step
`b`), yet the output is `{"a": Unit}` rather than the empty map: because step
`a` resolved, the key path `["a"]` is non-empty, so the nested tree with the
`Unit` leaf is built and merged; the `tree != Unit` guard never fires since
the tree is a `Map` (refuting the claim that such a clause contributes
nothing). -/
theorem filter_emits_unit_leaf_at_failing_input :
    filter [.map [(.str "a", .bool true)]] "[0].a.b" =
      .ok (.map [(.str "a", .unit)]) := by
  have hp : parseFil "[0].a.b" =
      .ok [.docIndex "0", .ident "a", .ident "b", .eoi] := rfl
  have hcmp : DocU.cmp (.str "a") (.str "a") = .eq := by
    rw [cmpU_str_eval]; decide
  have hcmp2 : (DocU.cmp (.str "b") (.str "a") == Ordering.eq) = false := by
    rw [cmpU_str_eval]; decide
  simp [filter, filterWith, hp, filterTokens, filterStep, emitClause, buildTree,
    DocU.opsIndexStr, DocU.mget, DocU.merge, DocU.mergeEntries, DocU.minsert,
    hcmp, hcmp2, DocU.beq_unit_right, DocU.isUnit, parseUsize, DocN.digitsToNat,
    (show (Ordering.eq == Ordering.eq) = true from rfl)]

/-- C10: with an empty input list, filter returns `Ok` of an empty `Map` for
every selector string and every grammar whatsoever: the selector is only
parsed when the list is non-empty, so no grammar error and no out-of-bounds
error can be reported. -/
theorem filter_empty_docs_ok :
    (∀ (p : String → Except String (List FTok)) (sel : String),
        filterWith p [] sel = .ok (.map [])) ∧
    (∀ sel : String, filter [] sel = .ok (.map [])) :=
  ⟨fun _ _ => rfl, fun _ => rfl⟩


set_option maxHeartbeats 1000000 in
theorem cmp0_str_eval (s t : String) : Doc0.cmp (.str s) (.str t) = compare s t := by
  simp only [Doc0.cmp]

/-- C8: `pointer` with the empty string returns the root; a non-empty pointer
not starting with `/` returns `None`; otherwise the `/`-separated segments,
unescaped `~1` to `/` then `~0` to `~`, are applied in order via map-key
lookup or parsed-integer sequence lookup; a sequence token with a leading `+`
or a leading `0` of length greater than one is rejected; any failed step (or
a non-container node) yields `None`.  `pointer` is a pure function of the
document, so it never modifies it. -/
theorem pointer_rfc6901 :
    (∀ d : Doc0, Doc0.pointer d "" = some d) ∧
    (∀ (d : Doc0) (s : String), s.data ≠ [] → s.data.head? ≠ some '/' →
        Doc0.pointer d s = none) ∧
    (∀ (d : Doc0) (s : String), s.data.head? = some '/' →
        Doc0.pointer d s = Doc0.walk d (Doc0.pointerTokens s)) ∧
    (∀ d : Doc0, Doc0.walk d [] = some d) ∧
    (∀ kvs t ts, Doc0.walk (.map kvs) (t :: ts) =
        (Doc0.mget kvs (.str t)).bind (fun c => Doc0.walk c ts)) ∧
    (∀ xs t ts, Doc0.walk (.seq xs) (t :: ts) =
        ((Doc0.parseIndex t).bind (fun i => xs.get? i)).bind
          (fun c => Doc0.walk c ts)) ∧
    (∀ (d : Doc0) (t : String) (ts : List String),
        (∀ kvs, d ≠ .map kvs) → (∀ xs, d ≠ .seq xs) →
        Doc0.walk d (t :: ts) = none) ∧
    Doc0.parseIndex "+1" = none ∧
    Doc0.parseIndex "01" = none ∧
    Doc0.parseIndex "0" = some 0 ∧
    Doc0.parseIndex "10" = some 10 ∧
    Doc0.pointerTokens "/a~1b/c~0d" = ["a/b", "c~d"] ∧
    Doc0.pointer
      (.map [(.str "some", .map [(.str "nested", .map [(.str "value", .str "X")])])])
      "/some/nested/value" = some (.str "X") := by
  refine ⟨?_, ?_, ?_, ?_, ?_, ?_, ?_, rfl, rfl, rfl, rfl, rfl, ?_⟩
  · intro d; rfl
  · intro d s h1 h2
    rw [Doc0.pointer, if_neg h1, if_neg h2]
  · intro d s h
    have h1 : s.data ≠ [] := by
      intro he; rw [he] at h; exact Option.noConfusion h
    rw [Doc0.pointer, if_neg h1, if_pos h]
  · intro d; cases d <;> rfl
  · intro kvs t ts; rfl
  · intro xs t ts; rfl
  · intro d t ts h1 h2
    cases d <;> first
      | exact absurd rfl (h1 _)
      | exact absurd rfl (h2 _)
      | rfl
  · have h1 : (Doc0.cmp (.str "some") (.str "some") == Ordering.eq) = true := by
      rw [cmp0_str_eval]; decide
    have h2 : (Doc0.cmp (.str "nested") (.str "nested") == Ordering.eq) = true := by
      rw [cmp0_str_eval]; decide
    have h3 : (Doc0.cmp (.str "value") (.str "value") == Ordering.eq) = true := by
      rw [cmp0_str_eval]; decide
    have hp : Doc0.pointer
        (.map [(.str "some", .map [(.str "nested", .map [(.str "value", .str "X")])])])
        "/some/nested/value" =
        Doc0.walk
          (.map [(.str "some", .map [(.str "nested", .map [(.str "value", .str "X")])])])
          ["some", "nested", "value"] := by
      rw [Doc0.pointer, if_neg (by decide), if_pos (by decide),
        (show Doc0.pointerTokens "/some/nested/value" = ["some", "nested", "value"]
          from rfl)]
    rw [hp]
    simp [Doc0.walk, Doc0.mget, h1, h2, h3]

/-- Witness for pointer_rfc6901 at concrete inputs. -/
theorem pointer_rfc6901_witness :
    Doc0.pointer .unit "abc" = none ∧
    Doc0.walk (.bool true) ["x"] = none := by
  constructor
  · exact pointer_rfc6901.2.1 .unit "abc" (by decide) (by decide)
  · exact pointer_rfc6901.2.2.2.2.2.2.1 (.bool true) "x" []
      (fun kvs h => Doc0.noConfusion h) (fun xs h => Doc0.noConfusion h)

end Unstr
